import Mathlib

/-!
Shallow embedding of the marker/anchor section-merge engine of the
`nuttx-env` repository (`src/nuttx_env/kconfig.py`) together with the
board-registration call path of `src/nuttx_env/handlers.py`.

Modelling conventions:

* A document is a `List String` of line strings exactly as Python's
  `readlines()` returns them (the line terminator stays inside each line).
* Python `str.strip()` on these ASCII documents is modelled by `String.trim`.
* A Python function that can raise is modelled with `Option`/`Except`;
  `ValueError` / `TypeError` / `FileNotFoundError` become `PyError`.
* File contents are passed in explicitly: a function of the source that opens
  and reads a file becomes a Lean function of that file's line list, and the
  single `writelines` save step of `KConfig.add_board` is modelled by
  returning the written content next to the in-memory result.
-/

namespace NuttxEnv

/-- Python exception classes that the embedded code can raise:
`TypeError` (call-arity mismatch), `ValueError` ("Section not found" and the
handler-level errors), `FileNotFoundError` (missing Kconfig file). -/
inductive PyError where
  | typeError
  | valueError
  | fileNotFoundError
deriving DecidableEq

/-- Python `str.strip()` with no argument: the string with whitespace removed
from both ends.  On the ASCII documents handled here Python's whitespace set
and `Char.isWhitespace` agree. -/
def pyStrip (s : String) : String :=
  String.mk
    (((s.data.dropWhile Char.isWhitespace).reverse.dropWhile
      Char.isWhitespace).reverse)

/-- The line-matching condition used by every scan in `kconfig.py`
(lines 132, 137, 169, 173, 340, 343): `line.strip() == marker`,
an exact (case-sensitive) comparison of the stripped line. -/
def lineMatchesMarker (line marker : String) : Bool :=
  pyStrip line == marker

/-- Marker sentinel for the CONFIG section start (kconfig.py line 27). -/
def startUserBoardConfig : String := "# ---- START USER BOARD CONFIG ----"

/-- Marker sentinel for the CONFIG section end (kconfig.py line 28). -/
def endUserBoardConfig : String := "# ---- END USER BOARD CONFIG ----"

/-- Marker sentinel for the DEFAULT section start (kconfig.py line 39). -/
def startUserBoardDefault : String := "# ---- START USER BOARD DEFAULT ----"

/-- Marker sentinel for the DEFAULT section end (kconfig.py line 40). -/
def endUserBoardDefault : String := "# ---- END USER BOARD DEFAULT ----"

/-- Marker sentinel for the OPTIONS section start (kconfig.py line 51). -/
def startUserBoardOptions : String := "# ---- START USER BOARD OPTIONS ----"

/-- Marker sentinel for the OPTIONS section end (kconfig.py line 52). -/
def endUserBoardOptions : String := "# ---- END USER BOARD OPTIONS ----"

/-- Loop body of `KConfigUserBoard._get_section_lines` (kconfig.py 127-145).
The Python accumulator `section_lines` is expressed by building the result
directly: a line whose trimmed content equals the start marker is appended
(when `insertMarker`) and turns the `inSection` flag on; a line whose trimmed
content equals the end marker is appended (when `insertMarker`) and breaks the
loop; any other line is appended only while `inSection` holds.  There is no
error path: if no marker is ever seen the accumulated list is returned. -/
def getSectionLinesGo (startMarker endMarker : String) (insertMarker : Bool) :
    List String → Bool → List String
  | [], _ => []
  | l :: rest, inSection =>
    if lineMatchesMarker l startMarker then
      (if insertMarker then [l] else [])
        ++ getSectionLinesGo startMarker endMarker insertMarker rest true
    else if lineMatchesMarker l endMarker then
      (if insertMarker then [l] else [])
    else if inSection then
      l :: getSectionLinesGo startMarker endMarker insertMarker rest inSection
    else
      getSectionLinesGo startMarker endMarker insertMarker rest inSection

/-- `KConfigUserBoard._get_section_lines` (kconfig.py 108-145) applied to the
content of an existing Kconfig file; the scan starts outside any section. -/
def getSectionLines (startMarker endMarker : String) (insertMarker : Bool)
    (doc : List String) : List String :=
  getSectionLinesGo startMarker endMarker insertMarker doc false

/-- `KConfigUserBoard.get_user_board_config` (kconfig.py 20-30) including the
file-existence check of `_check_kconfig_exists` (kconfig.py 98-106): `none`
stands for a missing file and yields `FileNotFoundError`; otherwise the CONFIG
section lines are extracted with `insert_marker=True` and returned. -/
def getUserBoardConfigFrom (file : Option (List String)) :
    Except PyError (List String) :=
  match file with
  | none => .error .fileNotFoundError
  | some doc =>
      .ok (getSectionLines startUserBoardConfig endUserBoardConfig true doc)

/-- Loop body of `KConfigUserBoard._get_section_place` (kconfig.py 163-178).
`st` is `lineno_start`: every line trimming to the start marker overwrites it
with the current index; the first line trimming to the end marker breaks with
`lineno_end = idx` (this check is not guarded by `in_section`; the flag is dead
state in the source and is dropped here).  After the loop, `lineno_start is
None or lineno_end is None` raises `ValueError` (kconfig.py 180-181), so a
break without a recorded start, or no break at all, yields `none`. -/
def getSectionPlaceGo (startMarker endMarker : String) :
    List String → Nat → Option Nat → Option (Nat × Nat)
  | [], _, _ => none
  | l :: rest, idx, st =>
    if lineMatchesMarker l startMarker then
      getSectionPlaceGo startMarker endMarker rest (idx + 1) (some idx)
    else if lineMatchesMarker l endMarker then
      match st with
      | some s => some (s, idx)
      | none => none
    else
      getSectionPlaceGo startMarker endMarker rest (idx + 1) st

/-- `KConfigUserBoard._get_section_place` (kconfig.py 147-183) on the content
of an existing file. -/
def getSectionPlace (startMarker endMarker : String) (doc : List String) :
    Option (Nat × Nat) :=
  getSectionPlaceGo startMarker endMarker doc 0 none

/-- Loop body of `KConfig._get_last_line_number_in_section`
(kconfig.py 336-348).  The `in_section` flag is threaded exactly as in the
source: the start branch sets it, but the end branch does not consult it —
the first line trimming to `marker_end` unconditionally breaks with
`lineno = idx - 1` (a Python `int`, hence `Int` here: it is `-1` when the end
marker is the first line).  `None` after the loop raises `ValueError`
(kconfig.py 350-351). -/
def getLastLineNumberGo (markerStart markerEnd : String) :
    List String → Nat → Bool → Option Int
  | [], _, _ => none
  | l :: rest, idx, inSection =>
    if lineMatchesMarker l markerStart then
      getLastLineNumberGo markerStart markerEnd rest (idx + 1) true
    else if lineMatchesMarker l markerEnd then
      some ((idx : Int) - 1)
    else
      getLastLineNumberGo markerStart markerEnd rest (idx + 1) inSection

/-- `KConfig._get_last_line_number_in_section` (kconfig.py 322-353). -/
def getLastLineNumberInSection (doc : List String)
    (markerStart markerEnd : String) : Option Int :=
  getLastLineNumberGo markerStart markerEnd doc 0 false

/-- `KConfig._replace_lines_at` (kconfig.py 368-381):
`lines[lineno_start:lineno_end + 1] = replace_lines`.  For the nonnegative
indices produced by `_get_section_place` (`lineno_start < lineno_end`) Python
slice assignment is `take`/`drop` with the usual clamping, which
`List.take`/`List.drop` share. -/
def replaceLinesAt (lines replaceLines : List String)
    (linenoStart linenoEnd : Nat) : List String :=
  lines.take linenoStart ++ replaceLines ++ lines.drop (linenoEnd + 1)

/-- `KConfig._insert_lines_at` (kconfig.py 355-366):
`lines[lineno:lineno] = insert_lines` with full Python slice-index semantics:
a negative `lineno` counts from the end and clamps at `0` (`Int.toNat` clamps),
a nonnegative one clamps at `len(lines)`. -/
def insertLinesAt (lines insertLines : List String) (lineno : Int) :
    List String :=
  let j : Nat :=
    if lineno < 0 then ((lines.length : Int) + lineno).toNat
    else min lineno.toNat lines.length
  lines.take j ++ insertLines ++ lines.drop j

/-- One marker-path merge: `_get_section_place` on a document followed by
`_replace_lines_at` with the located `[start, end]` range (the `try` branch of
each kind block in `KConfig.add_board`, e.g. kconfig.py 213-221). -/
def mergeMarkerPath (startMarker endMarker : String) (doc frag : List String) :
    Option (List String) :=
  (getSectionPlace startMarker endMarker doc).map
    (fun se => replaceLinesAt doc frag se.1 se.2)

/-- One anchor-path insertion: `_get_last_line_number_in_section` on a
document followed by `_insert_lines_at` at the returned index (the `except`
branch of each kind block in `KConfig.add_board`, e.g. kconfig.py 222-228). -/
def resolveAndInsert (doc frag : List String)
    (markerStart markerEnd : String) : Option (List String) :=
  (getLastLineNumberInSection doc markerStart markerEnd).map
    (insertLinesAt doc frag)

/-- One kind block of `KConfig.add_board` (kconfig.py 212-264).  `src` is the
content of the user-boards Kconfig file (fragment source), `destFile` is the
content of the destination file **on disk** — `get_section_place_user_board_*`
re-reads the file, so the marker lookup scans `destFile`, not the mutated
in-memory `lines`.  The anchor fallback `_find_place_*_to_insert(lines)`
scans the in-memory `lines`.  Both failures raise `ValueError`, which from the
fallback propagates out of `add_board`. -/
def addBoardProcessKind (src destFile lines : List String)
    (startMarker endMarker anchorStart anchorEnd : String) :
    Except PyError (List String) :=
  match getSectionPlace startMarker endMarker destFile with
  | some (s, e) =>
      .ok (replaceLinesAt lines (getSectionLines startMarker endMarker true src)
        s e)
  | none =>
      match getLastLineNumberInSection lines anchorStart anchorEnd with
      | some i =>
          .ok (insertLinesAt lines (getSectionLines startMarker endMarker true src)
            i)
      | none => .error .valueError

/-- `KConfig.add_board` (kconfig.py 198-268) on file contents: `src` is the
user-boards Kconfig content, `d0` the destination file content.  `lines` is
loaded once (`self._load()`), the CONFIG, DEFAULT and OPTIONS blocks run in
order (each marker lookup against the on-disk `d0`, each anchor fallback
against the current in-memory list, with the anchor pairs of
`_find_place_config_to_insert`, `_find_place_default_to_insert`,
`_find_place_options_to_insert`, kconfig.py 277-320), and only at the very
end the file is written (kconfig.py 266-268).  The second component is the
destination file content after the call: `d0` unless the save ran. -/
def addBoardRun (src d0 : List String) :
    Except PyError (List String) × List String :=
  match addBoardProcessKind src d0 d0
      startUserBoardConfig endUserBoardConfig "choice" "endchoice" with
  | .error e => (.error e, d0)
  | .ok l1 =>
    match addBoardProcessKind src d0 l1
        startUserBoardDefault endUserBoardDefault
        "config ARCH_BOARD" "comment \"Common Board Options\"" with
    | .error e => (.error e, d0)
    | .ok l2 =>
      match addBoardProcessKind src d0 l2
          startUserBoardOptions endUserBoardOptions
          "comment \"Board-Specific Options\"" "comment \"Board-Common Options\"" with
      | .error e => (.error e, d0)
      | .ok l3 => (.ok l3, l3)

/-- The call `kconfig.add_board(board_name, arh_chip)` in
`handlers.board_add_to_kconfig` (handlers.py 171) under Python's call
protocol: `KConfig.add_board(self)` (kconfig.py 198) declares no parameter
besides the receiver, so a call with a nonempty positional-argument list
raises `TypeError` before the body runs; with no extra arguments the body
`addBoardRun` executes. -/
def callAddBoard (posArgs : List String) (src d0 : List String) :
    Except PyError (List String) × List String :=
  if posArgs.length = 0 then addBoardRun src d0 else (.error .typeError, d0)

/-- The Kconfig-merge step of `handlers.board_add_to_kconfig`
(handlers.py 170-171), reached after the board directory was found and the
arch/chip string determined: it always performs the two-positional-argument
call. -/
def boardAddToKconfigMerge (boardName arhChip : String)
    (src d0 : List String) : Except PyError (List String) × List String :=
  callAddBoard [boardName, arhChip] src d0

/-- Modelled from the spec: the `FLAG` token of a board descriptor
(spec §3, §4.6: `ARCH_BOARD_` + upper(board_name) with `-` → `_`).  No code
under `src/` computes this token — `KConfig.add_board` takes no board
descriptor; only the two-argument call site in
`handlers.board_add_to_kconfig` refers to the missing composer. -/
def boardFlag (boardName : String) : String :=
  "ARCH_BOARD_" ++ (boardName.toUpper.replace "-" "_")

/-- Modelled from the spec: the CONFIG fragment line built by
`BoardKconfigComposer` (spec §4.6), absent from `src/`.  Base text
`\tdefault "<board_name>"`; if its length is below 37 it is padded with
spaces up to column 37, otherwise exactly one space is inserted (never
negative padding, never truncation); then `if <FLAG>` follows. -/
def buildConfigLine (boardName : String) : String :=
  let base := "\tdefault \"" ++ boardName ++ "\""
  let padLen := if base.length < 37 then 37 - base.length else 1
  base ++ String.mk (List.replicate padLen ' ') ++ "if " ++ boardFlag boardName

/-! ## Scan lemmas -/

/-- The `in_section` flag of `_get_last_line_number_in_section` is dead state:
the result of the scan does not depend on it. -/
theorem getLastLineNumberGo_flag (ms me : String) :
    ∀ (ls : List String) (idx : Nat) (b c : Bool),
      getLastLineNumberGo ms me ls idx b = getLastLineNumberGo ms me ls idx c := by
  intro ls
  induction ls with
  | nil => intro idx b c; rfl
  | cons l rest ih =>
    intro idx b c
    by_cases h1 : lineMatchesMarker l ms
    · simp only [getLastLineNumberGo, if_pos h1]
    · by_cases h2 : lineMatchesMarker l me
      · simp only [getLastLineNumberGo, if_neg h1, if_pos h2]
      · simp only [getLastLineNumberGo, if_neg h1, if_neg h2]
        exact ih (idx + 1) b c

/-- A block of lines none of which strips to the end marker is skipped by the
`_get_last_line_number_in_section` scan, advancing the index. -/
theorem getLastLineNumberGo_skip (ms me : String) :
    ∀ (p rest : List String) (idx : Nat) (b : Bool),
      (∀ l ∈ p, pyStrip l ≠ me) →
      getLastLineNumberGo ms me (p ++ rest) idx b
        = getLastLineNumberGo ms me rest (idx + p.length) b := by
  intro p
  induction p with
  | nil => intro rest idx b _; simp
  | cons l p ih =>
    intro rest idx b hfree
    have hl : pyStrip l ≠ me := hfree l (List.mem_cons_self l p)
    have hrest : ∀ x ∈ p, pyStrip x ≠ me :=
      fun x hx => hfree x (List.mem_cons_of_mem l hx)
    have h2 : ¬ lineMatchesMarker l me = true := by
      simp [lineMatchesMarker, hl]
    have harith : idx + (l :: p).length = (idx + 1) + p.length := by
      simp [List.length_cons]; omega
    rw [harith]
    by_cases h1 : lineMatchesMarker l ms
    · simp only [List.cons_append, getLastLineNumberGo, if_pos h1,
        List.append_eq]
      rw [ih rest (idx + 1) true hrest, getLastLineNumberGo_flag]
    · simp only [List.cons_append, getLastLineNumberGo, if_neg h1, if_neg h2,
        List.append_eq]
      exact ih rest (idx + 1) b hrest

/-- Soundness facts of the `_get_section_place` scan: a successful lookup
`some (s, e)` has `s < e`, `e` within the scanned block, and no line strictly
before the end line strips to the end marker (the end line is the first
end-marker line of the document). -/
theorem getSectionPlaceGo_spec (sm em : String) (hne : sm ≠ em) :
    ∀ (ls : List String) (idx : Nat) (st : Option Nat) (s e : Nat),
      (∀ v, st = some v → v < idx) →
      getSectionPlaceGo sm em ls idx st = some (s, e) →
      s < e ∧ idx ≤ e ∧ e - idx < ls.length ∧
        ∀ l ∈ ls.take (e - idx), pyStrip l ≠ em := by
  intro ls
  induction ls with
  | nil => intro idx st s e _ h; simp [getSectionPlaceGo] at h
  | cons l rest ih =>
    intro idx st s e hst h
    by_cases h1 : lineMatchesMarker l sm
    · simp only [getSectionPlaceGo, if_pos h1] at h
      have hst1 : ∀ v, (some idx : Option Nat) = some v → v < idx + 1 := by
        intro v hv; cases hv; omega
      obtain ⟨hlt, hle, hlen, hfree⟩ := ih (idx + 1) (some idx) s e hst1 h
      have hsplit : e - idx = (e - (idx + 1)) + 1 := by omega
      refine ⟨hlt, by omega, by simp [List.length_cons]; omega, ?_⟩
      rw [hsplit, List.take_succ_cons]
      intro x hx
      rcases List.mem_cons.mp hx with rfl | hx
      · have : pyStrip x = sm := by simpa [lineMatchesMarker] using h1
        rw [this]; exact hne
      · exact hfree x hx
    · by_cases h2 : lineMatchesMarker l em
      · simp only [getSectionPlaceGo, if_neg h1, if_pos h2] at h
        cases hstv : st with
        | none => rw [hstv] at h; simp at h
        | some v =>
          rw [hstv] at h
          simp only [Option.some.injEq, Prod.mk.injEq] at h
          obtain ⟨rfl, rfl⟩ := h
          exact ⟨hst v hstv, Nat.le_refl _, by simp [List.length_cons], by simp⟩
      · simp only [getSectionPlaceGo, if_neg h1, if_neg h2] at h
        have hst1 : ∀ v, st = some v → v < idx + 1 :=
          fun v hv => Nat.lt_succ_of_lt (hst v hv)
        obtain ⟨hlt, hle, hlen, hfree⟩ := ih (idx + 1) st s e hst1 h
        have hsplit : e - idx = (e - (idx + 1)) + 1 := by omega
        refine ⟨hlt, by omega, by simp [List.length_cons]; omega, ?_⟩
        rw [hsplit, List.take_succ_cons]
        intro x hx
        rcases List.mem_cons.mp hx with rfl | hx
        · simpa [lineMatchesMarker] using h2
        · exact hfree x hx

/-- Passing a block with no end-marker line through the `_get_section_place`
scan only advances the index and updates the recorded start (to some value). -/
theorem getSectionPlaceGo_append_ex (sm em : String) :
    ∀ (p rest : List String) (idx : Nat) (st : Option Nat),
      (∀ l ∈ p, pyStrip l ≠ em) →
      ∃ st2, getSectionPlaceGo sm em (p ++ rest) idx st
        = getSectionPlaceGo sm em rest (idx + p.length) st2 := by
  intro p
  induction p with
  | nil => intro rest idx st _; exact ⟨st, by simp⟩
  | cons l p ih =>
    intro rest idx st hfree
    have hl : pyStrip l ≠ em := hfree l (List.mem_cons_self l p)
    have hrest : ∀ x ∈ p, pyStrip x ≠ em :=
      fun x hx => hfree x (List.mem_cons_of_mem l hx)
    have h2 : ¬ lineMatchesMarker l em = true := by
      simp [lineMatchesMarker, hl]
    have harith : idx + (l :: p).length = (idx + 1) + p.length := by
      simp [List.length_cons]; omega
    by_cases h1 : lineMatchesMarker l sm
    · obtain ⟨st2, hskip⟩ := ih rest (idx + 1) (some idx) hrest
      refine ⟨st2, ?_⟩
      rw [harith]
      simpa only [List.cons_append, getSectionPlaceGo, if_pos h1] using hskip
    · obtain ⟨st2, hskip⟩ := ih rest (idx + 1) st hrest
      refine ⟨st2, ?_⟩
      rw [harith]
      simpa only [List.cons_append, getSectionPlaceGo, if_neg h1, if_neg h2]
        using hskip

/-- A block whose lines strip to neither marker passes through the
`_get_section_place` scan leaving the recorded start untouched. -/
theorem getSectionPlaceGo_skip (sm em : String) :
    ∀ (p rest : List String) (idx : Nat) (st : Option Nat),
      (∀ l ∈ p, pyStrip l ≠ sm ∧ pyStrip l ≠ em) →
      getSectionPlaceGo sm em (p ++ rest) idx st
        = getSectionPlaceGo sm em rest (idx + p.length) st := by
  intro p
  induction p with
  | nil => intro rest idx st _; simp
  | cons l p ih =>
    intro rest idx st hfree
    obtain ⟨hl1, hl2⟩ := hfree l (List.mem_cons_self l p)
    have hrest : ∀ x ∈ p, pyStrip x ≠ sm ∧ pyStrip x ≠ em :=
      fun x hx => hfree x (List.mem_cons_of_mem l hx)
    have h1 : ¬ lineMatchesMarker l sm = true := by simp [lineMatchesMarker, hl1]
    have h2 : ¬ lineMatchesMarker l em = true := by simp [lineMatchesMarker, hl2]
    have harith : idx + (l :: p).length = (idx + 1) + p.length := by
      simp [List.length_cons]; omega
    rw [harith]
    simp only [List.cons_append, getSectionPlaceGo, if_neg h1, if_neg h2]
    exact ih rest (idx + 1) st hrest

/-- A block whose lines strip to neither marker contributes nothing to the
`_get_section_lines` scan while outside the section. -/
theorem getSectionLinesGo_skip (sm em : String) (im : Bool) :
    ∀ (p rest : List String),
      (∀ l ∈ p, pyStrip l ≠ sm ∧ pyStrip l ≠ em) →
      getSectionLinesGo sm em im (p ++ rest) false
        = getSectionLinesGo sm em im rest false := by
  intro p
  induction p with
  | nil => intro rest _; simp
  | cons l p ih =>
    intro rest hfree
    obtain ⟨hl1, hl2⟩ := hfree l (List.mem_cons_self l p)
    have hrest : ∀ x ∈ p, pyStrip x ≠ sm ∧ pyStrip x ≠ em :=
      fun x hx => hfree x (List.mem_cons_of_mem l hx)
    have h1 : ¬ lineMatchesMarker l sm = true := by simp [lineMatchesMarker, hl1]
    have h2 : ¬ lineMatchesMarker l em = true := by simp [lineMatchesMarker, hl2]
    simp only [List.cons_append, getSectionLinesGo, if_neg h1, if_neg h2,
      if_neg (Bool.false_ne_true)]
    exact ih rest hrest

/-- While inside the section with `insert_marker=True`, a block with no
end-marker line is appended verbatim by the `_get_section_lines` scan (a line
stripping to the start marker is also appended, by the first branch). -/
theorem getSectionLinesGo_collect (sm em : String) :
    ∀ (p rest : List String),
      (∀ l ∈ p, pyStrip l ≠ em) →
      getSectionLinesGo sm em true (p ++ rest) true
        = p ++ getSectionLinesGo sm em true rest true := by
  intro p
  induction p with
  | nil => intro rest _; simp
  | cons l p ih =>
    intro rest hfree
    have hl : pyStrip l ≠ em := hfree l (List.mem_cons_self l p)
    have hrest : ∀ x ∈ p, pyStrip x ≠ em :=
      fun x hx => hfree x (List.mem_cons_of_mem l hx)
    have h2 : ¬ lineMatchesMarker l em = true := by simp [lineMatchesMarker, hl]
    by_cases h1 : lineMatchesMarker l sm
    · simp only [List.cons_append, getSectionLinesGo, if_pos h1, if_pos rfl,
        List.append_eq]
      rw [ih rest hrest]
      simp
    · simp only [List.cons_append, getSectionLinesGo, if_neg h1, if_neg h2,
        if_pos rfl, List.append_eq]
      rw [ih rest hrest]
      simp

/-- After a marker-path replacement of the located section `[s, e]` with a
well-delimited fragment (start-marker line, interior free of marker lines,
end-marker line), `_get_section_place` locates the fragment itself:
`(s, s + mid.length + 1)`. -/
theorem getSectionPlace_replace (sm em : String) (hne : sm ≠ em)
    (doc mid : List String) (fs fe : String) (s e : Nat)
    (hfs : pyStrip fs = sm) (hfe : pyStrip fe = em)
    (hmid : ∀ l ∈ mid, pyStrip l ≠ sm ∧ pyStrip l ≠ em)
    (hfind : getSectionPlace sm em doc = some (s, e)) :
    getSectionPlace sm em (replaceLinesAt doc (fs :: (mid ++ [fe])) s e)
      = some (s, s + mid.length + 1) := by
  obtain ⟨hlt, -, hlen, hfree⟩ :=
    getSectionPlaceGo_spec sm em hne doc 0 none s e (by simp) hfind
  simp only [Nat.sub_zero] at hlen hfree
  have hsle : s ≤ doc.length := by omega
  have hslen : (doc.take s).length = s := by
    simp [List.length_take, Nat.min_eq_left hsle]
  have hpre : ∀ l ∈ doc.take s, pyStrip l ≠ em := by
    intro l hl
    apply hfree
    have hts : doc.take s = (doc.take e).take s := by
      rw [List.take_take, Nat.min_eq_left (Nat.le_of_lt hlt)]
    rw [hts] at hl
    exact List.take_subset _ _ hl
  unfold getSectionPlace replaceLinesAt
  have hassoc :
      doc.take s ++ (fs :: (mid ++ [fe])) ++ doc.drop (e + 1)
        = doc.take s ++ (fs :: (mid ++ (fe :: doc.drop (e + 1)))) := by
    simp
  rw [hassoc]
  obtain ⟨st2, hskip⟩ :=
    getSectionPlaceGo_append_ex sm em (doc.take s) _ 0 none hpre
  rw [hskip, hslen, Nat.zero_add]
  have hfs1 : lineMatchesMarker fs sm = true := by simp [lineMatchesMarker, hfs]
  simp only [getSectionPlaceGo, if_pos hfs1]
  rw [getSectionPlaceGo_skip sm em mid _ (s + 1) (some s) hmid]
  have hfe1 : ¬ lineMatchesMarker fe sm = true := by
    simp only [lineMatchesMarker, beq_iff_eq, hfe]
    exact fun h => hne h.symm
  have hfe2 : lineMatchesMarker fe em = true := by simp [lineMatchesMarker, hfe]
  simp only [getSectionPlaceGo, if_neg hfe1, if_pos hfe2]
  congr 2
  omega

/-- Replacing the fragment's own location `[s, s + mid.length + 1]` inside the
already-merged document with the same fragment reproduces the document. -/
theorem replaceLinesAt_self (doc mid : List String) (fs fe : String)
    (s e : Nat) (hsle : s ≤ doc.length) :
    replaceLinesAt (replaceLinesAt doc (fs :: (mid ++ [fe])) s e)
        (fs :: (mid ++ [fe])) s (s + mid.length + 1)
      = replaceLinesAt doc (fs :: (mid ++ [fe])) s e := by
  have hslen : (doc.take s).length = s := by
    simp [List.length_take, Nat.min_eq_left hsle]
  unfold replaceLinesAt
  have htake :
      (doc.take s ++ (fs :: (mid ++ [fe])) ++ doc.drop (e + 1)).take s
        = doc.take s := by
    rw [List.append_assoc]
    exact List.take_left' hslen
  have hdroplen :
      (doc.take s ++ (fs :: (mid ++ [fe]))).length = s + mid.length + 1 + 1 := by
    simp [List.length_append, hslen]
    omega
  have hdrop :
      (doc.take s ++ (fs :: (mid ++ [fe])) ++ doc.drop (e + 1)).drop
          (s + mid.length + 1 + 1)
        = doc.drop (e + 1) :=
    List.drop_left' hdroplen
  rw [htake, hdrop]

/-- Extracting the section from an already-merged document returns the merged
fragment verbatim, provided no line of the document before the located section
strips to the start marker. -/
theorem getSectionLines_replace (sm em : String) (hne : sm ≠ em)
    (doc mid : List String) (fs fe : String) (s e : Nat)
    (hfs : pyStrip fs = sm) (hfe : pyStrip fe = em)
    (hmid : ∀ l ∈ mid, pyStrip l ≠ em)
    (hfind : getSectionPlace sm em doc = some (s, e))
    (hpre : ∀ l ∈ doc.take s, pyStrip l ≠ sm) :
    getSectionLines sm em true (replaceLinesAt doc (fs :: (mid ++ [fe])) s e)
      = fs :: (mid ++ [fe]) := by
  obtain ⟨hlt, -, hlen, hfree⟩ :=
    getSectionPlaceGo_spec sm em hne doc 0 none s e (by simp) hfind
  simp only [Nat.sub_zero] at hlen hfree
  have hsle : s ≤ doc.length := by omega
  have hpre2 : ∀ l ∈ doc.take s, pyStrip l ≠ sm ∧ pyStrip l ≠ em := by
    intro l hl
    refine ⟨hpre l hl, ?_⟩
    apply hfree
    have hts : doc.take s = (doc.take e).take s := by
      rw [List.take_take, Nat.min_eq_left (Nat.le_of_lt hlt)]
    rw [hts] at hl
    exact List.take_subset _ _ hl
  unfold getSectionLines replaceLinesAt
  have hassoc :
      doc.take s ++ (fs :: (mid ++ [fe])) ++ doc.drop (e + 1)
        = doc.take s ++ (fs :: (mid ++ (fe :: doc.drop (e + 1)))) := by
    simp
  rw [hassoc, getSectionLinesGo_skip sm em true (doc.take s) _ hpre2]
  have hfs1 : lineMatchesMarker fs sm = true := by simp [lineMatchesMarker, hfs]
  simp only [getSectionLinesGo, if_pos hfs1, if_pos rfl]
  rw [getSectionLinesGo_collect sm em mid _ hmid]
  have hfe1 : ¬ lineMatchesMarker fe sm = true := by
    simp only [lineMatchesMarker, beq_iff_eq, hfe]
    exact fun h => hne h.symm
  have hfe2 : lineMatchesMarker fe em = true := by simp [lineMatchesMarker, hfe]
  simp only [getSectionLinesGo, if_neg hfe1, if_pos hfe2, if_pos rfl]
  simp

/-! ## Claims -/

/-- C1 (code-bug evaluation): `KConfig.add_board` computes each section place
by re-reading the on-disk file while mutating the in-memory line list, so
after the CONFIG merge grows the document by one line, the DEFAULT and
OPTIONS replacements land one line too early: the hand-written lines `m` and
`t`, which lie strictly outside every marker section of the destination, are
destroyed, contradicting the claim that every line strictly outside the
located section is byte-identical before and after the merge. -/
theorem c1_stale_locations_overwrite_outside_sections :
    addBoardRun
        [startUserBoardConfig ++ "\n", "c1\n", endUserBoardConfig ++ "\n",
          startUserBoardDefault ++ "\n", "d1\n", endUserBoardDefault ++ "\n",
          startUserBoardOptions ++ "\n", "o1\n", endUserBoardOptions ++ "\n"]
        ["h\n", startUserBoardConfig ++ "\n", endUserBoardConfig ++ "\n",
          "m\n", startUserBoardDefault ++ "\n", endUserBoardDefault ++ "\n",
          "t\n", startUserBoardOptions ++ "\n", endUserBoardOptions ++ "\n",
          "z\n"]
      = (Except.ok
          ["h\n", startUserBoardConfig ++ "\n", "c1\n",
            endUserBoardConfig ++ "\n", startUserBoardDefault ++ "\n", "d1\n",
            endUserBoardDefault ++ "\n", startUserBoardOptions ++ "\n", "o1\n",
            endUserBoardOptions ++ "\n", startUserBoardOptions ++ "\n",
            endUserBoardOptions ++ "\n", "z\n"],
          ["h\n", startUserBoardConfig ++ "\n", "c1\n",
            endUserBoardConfig ++ "\n", startUserBoardDefault ++ "\n", "d1\n",
            endUserBoardDefault ++ "\n", startUserBoardOptions ++ "\n", "o1\n",
            endUserBoardOptions ++ "\n", startUserBoardOptions ++ "\n",
            endUserBoardOptions ++ "\n", "z\n"])
    ∧ "m\n" ∈ ["h\n", startUserBoardConfig ++ "\n", endUserBoardConfig ++ "\n",
        "m\n", startUserBoardDefault ++ "\n", endUserBoardDefault ++ "\n",
        "t\n", startUserBoardOptions ++ "\n", endUserBoardOptions ++ "\n",
        "z\n"]
    ∧ "t\n" ∈ ["h\n", startUserBoardConfig ++ "\n", endUserBoardConfig ++ "\n",
        "m\n", startUserBoardDefault ++ "\n", endUserBoardDefault ++ "\n",
        "t\n", startUserBoardOptions ++ "\n", endUserBoardOptions ++ "\n",
        "z\n"]
    ∧ "m\n" ∉ ["h\n", startUserBoardConfig ++ "\n", "c1\n",
        endUserBoardConfig ++ "\n", startUserBoardDefault ++ "\n", "d1\n",
        endUserBoardDefault ++ "\n", startUserBoardOptions ++ "\n", "o1\n",
        endUserBoardOptions ++ "\n", startUserBoardOptions ++ "\n",
        endUserBoardOptions ++ "\n", "z\n"]
    ∧ "t\n" ∉ ["h\n", startUserBoardConfig ++ "\n", "c1\n",
        endUserBoardConfig ++ "\n", startUserBoardDefault ++ "\n", "d1\n",
        endUserBoardDefault ++ "\n", startUserBoardOptions ++ "\n", "o1\n",
        endUserBoardOptions ++ "\n", startUserBoardOptions ++ "\n",
        endUserBoardOptions ++ "\n", "z\n"] :=
  ⟨rfl, by decide, by decide, by decide, by decide⟩

/-- C2 (code-bug evaluation): in `_get_last_line_number_in_section` the
end-marker check is not guarded by `in_section`, so a document whose first
line is `endchoice` (before any `choice` line) yields the insertion index
`-1` instead of raising `ValueError` as the spec requires. -/
theorem c2_end_before_start_returns_index :
    getLastLineNumberInSection ["endchoice\n", "choice\n"]
      "choice" "endchoice" = some (-1) := by
  decide

/-- C3 (counterexample): extracting the CONFIG fragment from a source
document with no CONFIG markers does not fail — `_get_section_lines` has no
error path and `get_user_board_config` returns the empty list. -/
theorem c3_missing_markers_returns_ok_empty :
    getUserBoardConfigFrom (some ["foo\n", "bar\n"]) = .ok [] := rfl

/-- C3 (amended): for every source document that contains no line stripping
to the CONFIG start marker and none stripping to the CONFIG end marker,
`get_user_board_config` returns the empty fragment rather than failing. -/
theorem c3_extract_without_markers_is_empty (doc : List String)
    (h : ∀ l ∈ doc, pyStrip l ≠ startUserBoardConfig
      ∧ pyStrip l ≠ endUserBoardConfig) :
    getUserBoardConfigFrom (some doc) = .ok [] := by
  have hskip := getSectionLinesGo_skip startUserBoardConfig endUserBoardConfig
    true doc [] h
  rw [List.append_nil] at hskip
  have hempty : getSectionLines startUserBoardConfig endUserBoardConfig true
      doc = [] := hskip
  simp [getUserBoardConfigFrom, hempty]

/-- C3 witness: a concrete marker-free document. -/
theorem c3_extract_without_markers_is_empty_witness :
    getUserBoardConfigFrom (some ["foo\n"]) = .ok [] :=
  c3_extract_without_markers_is_empty ["foo\n"] (by decide)

/-- C4: `board_add_to_kconfig` calls `KConfig.add_board(board_name, arh_chip)`
with two positional arguments while `add_board` accepts none, so every call
reaching the merge step raises `TypeError` and the boards Kconfig file is
never modified through this path. -/
theorem c4_add_board_call_type_error (boardName arhChip : String)
    (src d0 : List String) :
    boardAddToKconfigMerge boardName arhChip src d0
      = (.error .typeError, d0) := by
  simp [boardAddToKconfigMerge, callAddBoard]

/-- C5 (counterexample): a fragment that begins with the start-marker line
and ends with the end-marker line but carries a second start-marker line in
its interior breaks idempotence: the second merge locates the later start
marker and produces a longer document. -/
theorem c5_interior_marker_breaks_idempotence :
    mergeMarkerPath startUserBoardConfig endUserBoardConfig
        [startUserBoardConfig ++ "\n", endUserBoardConfig ++ "\n"]
        [startUserBoardConfig ++ "\n", startUserBoardConfig ++ "\n",
          endUserBoardConfig ++ "\n"]
      = some [startUserBoardConfig ++ "\n", startUserBoardConfig ++ "\n",
          endUserBoardConfig ++ "\n"]
    ∧ mergeMarkerPath startUserBoardConfig endUserBoardConfig
        [startUserBoardConfig ++ "\n", startUserBoardConfig ++ "\n",
          endUserBoardConfig ++ "\n"]
        [startUserBoardConfig ++ "\n", startUserBoardConfig ++ "\n",
          endUserBoardConfig ++ "\n"]
      = some [startUserBoardConfig ++ "\n", startUserBoardConfig ++ "\n",
          startUserBoardConfig ++ "\n", endUserBoardConfig ++ "\n"]
    ∧ [startUserBoardConfig ++ "\n", startUserBoardConfig ++ "\n",
        startUserBoardConfig ++ "\n", endUserBoardConfig ++ "\n"]
      ≠ [startUserBoardConfig ++ "\n", startUserBoardConfig ++ "\n",
          endUserBoardConfig ++ "\n"] := by
  decide

/-- C5 (amended): for every destination document in which the marker lookup
succeeds and every fragment that begins with the start-marker line, ends with
the end-marker line, and whose interior lines strip to neither marker,
performing the marker-path merge twice with the identical fragment yields a
document byte-identical to performing it once. -/
theorem c5_marker_merge_idempotent (sm em : String)
    (doc mid doc1 : List String) (fs fe : String)
    (hne : sm ≠ em) (hfs : pyStrip fs = sm) (hfe : pyStrip fe = em)
    (hmid : ∀ l ∈ mid, pyStrip l ≠ sm ∧ pyStrip l ≠ em)
    (hmerge : mergeMarkerPath sm em doc (fs :: (mid ++ [fe])) = some doc1) :
    mergeMarkerPath sm em doc1 (fs :: (mid ++ [fe])) = some doc1 := by
  unfold mergeMarkerPath at hmerge
  cases hp : getSectionPlace sm em doc with
  | none => rw [hp] at hmerge; simp at hmerge
  | some se =>
    obtain ⟨s, e⟩ := se
    rw [hp] at hmerge
    have hdoc1 : replaceLinesAt doc (fs :: (mid ++ [fe])) s e = doc1 := by
      simpa using hmerge
    obtain ⟨hlt, -, hlen, -⟩ :=
      getSectionPlaceGo_spec sm em hne doc 0 none s e (by simp) hp
    simp only [Nat.sub_zero] at hlen
    have hsle : s ≤ doc.length := by omega
    subst hdoc1
    unfold mergeMarkerPath
    rw [getSectionPlace_replace sm em hne doc mid fs fe s e hfs hfe hmid hp]
    simp only [Option.map_some']
    rw [replaceLinesAt_self doc mid fs fe s e hsle]

/-- C5 witness: merging the stable CONFIG fragment into a destination that
already carries the CONFIG markers is idempotent. -/
theorem c5_marker_merge_idempotent_witness :
    mergeMarkerPath startUserBoardConfig endUserBoardConfig
        [startUserBoardConfig ++ "\n", "c1\n", endUserBoardConfig ++ "\n"]
        [startUserBoardConfig ++ "\n", "c1\n", endUserBoardConfig ++ "\n"]
      = some [startUserBoardConfig ++ "\n", "c1\n",
          endUserBoardConfig ++ "\n"] :=
  c5_marker_merge_idempotent startUserBoardConfig endUserBoardConfig
    [startUserBoardConfig ++ "\n", endUserBoardConfig ++ "\n"] ["c1\n"]
    [startUserBoardConfig ++ "\n", "c1\n", endUserBoardConfig ++ "\n"]
    (startUserBoardConfig ++ "\n") (endUserBoardConfig ++ "\n")
    (by decide) (by decide) (by decide) (by decide) (by decide)

/-- C6 (counterexample): merging a fragment that carries no marker lines and
then extracting returns the empty list, not the fragment — the round-trip
claim fails for general fragments. -/
theorem c6_markerless_fragment_breaks_roundtrip :
    mergeMarkerPath startUserBoardConfig endUserBoardConfig
        [startUserBoardConfig ++ "\n", endUserBoardConfig ++ "\n"] ["x\n"]
      = some ["x\n"]
    ∧ getSectionLines startUserBoardConfig endUserBoardConfig true ["x\n"] = []
    ∧ (["x\n"] : List String) ≠ [] := by
  decide

/-- C6 (amended): merge followed by extract of the same kind returns the
fragment unchanged, provided the marker lookup on the destination succeeds,
no line before the located section strips to the start marker, and the
fragment begins with the start-marker line, ends with the end-marker line,
and has no interior line stripping to the end marker. -/
theorem c6_merge_extract_roundtrip (sm em : String)
    (doc mid doc1 : List String) (fs fe : String) (s e : Nat)
    (hne : sm ≠ em) (hfs : pyStrip fs = sm) (hfe : pyStrip fe = em)
    (hmid : ∀ l ∈ mid, pyStrip l ≠ em)
    (hplace : getSectionPlace sm em doc = some (s, e))
    (hpre : ∀ l ∈ doc.take s, pyStrip l ≠ sm)
    (hmerge : mergeMarkerPath sm em doc (fs :: (mid ++ [fe])) = some doc1) :
    getSectionLines sm em true doc1 = fs :: (mid ++ [fe]) := by
  unfold mergeMarkerPath at hmerge
  rw [hplace] at hmerge
  have hdoc1 : replaceLinesAt doc (fs :: (mid ++ [fe])) s e = doc1 := by
    simpa using hmerge
  subst hdoc1
  exact getSectionLines_replace sm em hne doc mid fs fe s e hfs hfe hmid
    hplace hpre

/-- C6 witness: round-trip at a concrete destination and CONFIG fragment. -/
theorem c6_merge_extract_roundtrip_witness :
    getSectionLines startUserBoardConfig endUserBoardConfig true
        [startUserBoardConfig ++ "\n", "c1\n", endUserBoardConfig ++ "\n"]
      = [startUserBoardConfig ++ "\n", "c1\n", endUserBoardConfig ++ "\n"] :=
  c6_merge_extract_roundtrip startUserBoardConfig endUserBoardConfig
    [startUserBoardConfig ++ "\n", endUserBoardConfig ++ "\n"] ["c1\n"]
    [startUserBoardConfig ++ "\n", "c1\n", endUserBoardConfig ++ "\n"]
    (startUserBoardConfig ++ "\n") (endUserBoardConfig ++ "\n") 0 1
    (by decide) (by decide) (by decide) (by decide) (by decide) (by decide)
    (by decide)

/-- C7 (counterexample): the scan's start condition does not accept a line
that merely begins with the start text: `config ARCH_BOARD_X` is rejected for
`config ARCH_BOARD`. -/
theorem c7_longer_line_not_accepted :
    lineMatchesMarker "config ARCH_BOARD_X\n" "config ARCH_BOARD" = false := by
  decide

/-- C7 (amended): the structural-anchor scan's start condition matches a line
by exact equality of its stripped content with the start text, not by
prefix: a line carrying additional text after that text is rejected. -/
theorem c7_start_condition_exact_equality :
    (∀ l m : String, lineMatchesMarker l m = true ↔ pyStrip l = m)
    ∧ lineMatchesMarker "config ARCH_BOARD\n" "config ARCH_BOARD" = true
    ∧ lineMatchesMarker "   config ARCH_BOARD_X\n" "config ARCH_BOARD"
      = false :=
  ⟨fun l m => by simp [lineMatchesMarker], by decide, by decide⟩

/-- C8 (counterexample): with `choice` at line 2 and `endchoice` at line 10,
the resolved insertion point is line 9 — but the inserted fragment is
followed by the old line 9, not by `endchoice`, which ends up at line 11:
the fragment is not immediately before `endchoice`. -/
theorem c8_fragment_not_adjacent_to_endchoice :
    resolveAndInsert
        ["a0\n", "choice\n", "x2\n", "x3\n", "x4\n", "x5\n", "x6\n", "x7\n",
          "x9\n", "endchoice\n"] ["new\n"] "choice" "endchoice"
      = some ["a0\n", "choice\n", "x2\n", "x3\n", "x4\n", "x5\n", "x6\n",
          "x7\n", "new\n", "x9\n", "endchoice\n"]
    ∧ ["a0\n", "choice\n", "x2\n", "x3\n", "x4\n", "x5\n", "x6\n", "x7\n",
        "new\n", "x9\n", "endchoice\n"][9]? = some "x9\n"
    ∧ ¬ (["a0\n", "choice\n", "x2\n", "x3\n", "x4\n", "x5\n", "x6\n", "x7\n",
        "new\n", "x9\n", "endchoice\n"][9]? = some "endchoice\n") := by
  decide

/-- C8 (amended): for every marker-less destination whose `choice` anchor is
at line 2 and whose first `endchoice` line is line 10, inserting a 1-line
CONFIG fragment at the resolved insertion point places the fragment at
line 9 and shifts the old line 9 to line 10 (with `endchoice` moving to
line 11) — the fragment lands immediately before the old line 9, the last
line inside the block, not immediately before `endchoice`. -/
theorem c8_insert_before_last_line
    (l0 l1 l2 l3 l4 l5 l6 l7 l8 l9 f : String) (rest : List String)
    (hend : ∀ l ∈ [l0, l1, l2, l3, l4, l5, l6, l7, l8],
      pyStrip l ≠ "endchoice")
    (hl1 : pyStrip l1 = "choice")
    (hl9 : pyStrip l9 = "endchoice")
    (hnomark : ∀ l ∈ [l0, l1, l2, l3, l4, l5, l6, l7, l8, l9] ++ rest,
      pyStrip l ≠ startUserBoardConfig) :
    resolveAndInsert ([l0, l1, l2, l3, l4, l5, l6, l7, l8, l9] ++ rest) [f]
        "choice" "endchoice"
      = some ([l0, l1, l2, l3, l4, l5, l6, l7] ++ f :: l8 :: l9 :: rest) := by
  have hnum : getLastLineNumberInSection
      ([l0, l1, l2, l3, l4, l5, l6, l7, l8, l9] ++ rest)
      "choice" "endchoice" = some 8 := by
    unfold getLastLineNumberInSection
    have hsplit : [l0, l1, l2, l3, l4, l5, l6, l7, l8, l9] ++ rest
        = [l0, l1, l2, l3, l4, l5, l6, l7, l8] ++ (l9 :: rest) := by simp
    rw [hsplit,
      getLastLineNumberGo_skip "choice" "endchoice" _ _ 0 false hend]
    have h9a : ¬ lineMatchesMarker l9 "choice" = true := by
      simp only [lineMatchesMarker, beq_iff_eq, hl9]
      decide
    have h9b : lineMatchesMarker l9 "endchoice" = true := by
      simp [lineMatchesMarker, hl9]
    simp only [getLastLineNumberGo, if_neg h9a, if_pos h9b]
    norm_num
  unfold resolveAndInsert
  rw [hnum]
  simp only [Option.map_some']
  congr 1

/-- C8 witness: a concrete ten-line destination. -/
theorem c8_insert_before_last_line_witness :
    resolveAndInsert
        ["a0\n", "choice\n", "b2\n", "b3\n", "b4\n", "b5\n", "b6\n", "b7\n",
          "b9\n", "endchoice\n"] ["frag\n"] "choice" "endchoice"
      = some ["a0\n", "choice\n", "b2\n", "b3\n", "b4\n", "b5\n", "b6\n",
          "b7\n", "frag\n", "b9\n", "endchoice\n"] :=
  c8_insert_before_last_line "a0\n" "choice\n" "b2\n" "b3\n" "b4\n" "b5\n"
    "b6\n" "b7\n" "b9\n" "endchoice\n" "frag\n" []
    (by decide) (by decide) (by decide) (by decide)

/-- C9 (spec-modelled): the CONFIG fragment line equals the base text
`\tdefault "<board_name>"` followed by spaces up to column 37 when the base
is shorter than 37 characters and by exactly one space otherwise (never
negative padding, never truncation), then `if ARCH_BOARD_<NAME>` with the
board name uppercased and `-` replaced by `_`. -/
theorem c9_config_line_padding (boardName : String) :
    buildConfigLine boardName
      = ("\tdefault \"" ++ boardName ++ "\"")
        ++ String.mk (List.replicate
            (max (37 - ("\tdefault \"" ++ boardName ++ "\"").length) 1) ' ')
        ++ "if " ++ boardFlag boardName
    ∧ 1 ≤ max (37 - ("\tdefault \"" ++ boardName ++ "\"").length) 1
    ∧ ("\tdefault \"" ++ boardName ++ "\"").length
        + max (37 - ("\tdefault \"" ++ boardName ++ "\"").length) 1
      = max 37 (("\tdefault \"" ++ boardName ++ "\"").length + 1)
    ∧ boardFlag boardName
      = "ARCH_BOARD_" ++ (boardName.toUpper.replace "-" "_") := by
  have hmax : ∀ n : Nat, (if n < 37 then 37 - n else 1) = max (37 - n) 1 := by
    intro n; split <;> omega
  refine ⟨?_, Nat.le_max_right _ 1, by omega, rfl⟩
  simp only [buildConfigLine]
  rw [hmax]

/-- C10: if any of the three per-kind merges inside `add_board` fails, the
error propagates before the save step and the destination file content is
unchanged. -/
theorem c10_error_leaves_file_unchanged (src d0 : List String) (err : PyError)
    (h : (addBoardRun src d0).1 = .error err) :
    (addBoardRun src d0).2 = d0 := by
  unfold addBoardRun at h ⊢
  cases h1 : addBoardProcessKind src d0 d0 startUserBoardConfig
      endUserBoardConfig "choice" "endchoice" with
  | error e => simp only [h1]
  | ok l1 =>
    simp only [h1] at h ⊢
    cases h2 : addBoardProcessKind src d0 l1 startUserBoardDefault
        endUserBoardDefault "config ARCH_BOARD"
        "comment \"Common Board Options\"" with
    | error e => simp only [h2]
    | ok l2 =>
      simp only [h2] at h ⊢
      cases h3 : addBoardProcessKind src d0 l2 startUserBoardOptions
          endUserBoardOptions "comment \"Board-Specific Options\""
          "comment \"Board-Common Options\"" with
      | error e => simp only [h3]
      | ok l3 =>
        simp only [h3] at h
        exact absurd h (by simp)

/-- C10 witness: an empty destination makes the CONFIG merge fail and leaves
the file content untouched. -/
theorem c10_error_leaves_file_unchanged_witness :
    (addBoardRun [] []).1 = Except.error PyError.valueError
    ∧ (addBoardRun [] []).2 = [] :=
  ⟨rfl, c10_error_leaves_file_unchanged [] [] PyError.valueError rfl⟩

end NuttxEnv
